import Mathlib

/-!
Verification development for the design-manager color engine.

The JavaScript sources are shallowly embedded: JS numbers become `ℚ`
(the irrational `Math.pow` gamma steps are abstracted as an explicit
function parameter `pw : ℚ → ℚ` so that every definition stays
computable), JS strings of the parser become `List Char`, and nullable
results become `Option`.  Third-party `culori` calls are outside the
repository; paths that delegate to them are marked explicitly and no
theorem depends on their behaviour.
-/

set_option autoImplicit false

namespace DesignManager

/-! ### Color parser (src/unnamed/part_003, `parseToOklch`)

The source matches `oklch`-prefixed strings against the regex
`/oklch\(([\d.]+)\s+([\d.]+)\s+([\d.]+)/` and otherwise delegates to the
external `culori` parser.  The regex engine scans for the first position
where the whole pattern matches; each `[\d.]+` group, being greedy and
followed by a character class disjoint from it, captures a maximal run. -/

/-- Character class `[\d.]` of the source regex. -/
def isDigitDot (ch : Char) : Bool := ch.isDigit || ch == '.'

/-- Character class `\s` of the source regex (common whitespace). -/
def isSpaceChar (ch : Char) : Bool :=
  ch == ' ' || ch == '\t' || ch == '\n' || ch == '\r'

/-- JS `String.prototype.startsWith`, on char lists. -/
def startsWithChars : List Char → List Char → Bool
  | [], _ => true
  | _ :: _, [] => false
  | p :: ps, c :: cs => p == c && startsWithChars ps cs

/-- Numeric value of a run of decimal digits. -/
def digitsToNat (ds : List Char) : ℕ :=
  ds.foldl (fun acc d => 10 * acc + (d.toNat - 48)) 0

/-- JS `parseFloat` restricted to the strings the regex can capture
(runs of digits and dots): integer part, optional dot, fractional part,
everything after a second dot ignored; `none` models `NaN`. -/
def jsParseFloat (cs : List Char) : Option ℚ :=
  let ip := cs.takeWhile Char.isDigit
  let r := cs.dropWhile Char.isDigit
  match r with
  | '.' :: rest =>
      let fp := rest.takeWhile Char.isDigit
      if ip = [] ∧ fp = [] then none
      else some ((digitsToNat ip : ℚ) + (digitsToNat fp : ℚ) / (10 : ℚ) ^ fp.length)
  | _ => if ip = [] then none else some (digitsToNat ip)

/-- Result object of the regex branch: `{mode:'oklch', l, c, h}` with
`parseFloat` applied to each captured group (`none` models `NaN`). -/
structure ParsedOklch where
  l : Option ℚ
  c : Option ℚ
  h : Option ℚ
  deriving DecidableEq, Repr

/-- The chars `oklch(` that anchor the regex. -/
def oklchParen : List Char := ['o', 'k', 'l', 'c', 'h', '(']

/-- The chars of the `startsWith('oklch')` guard. -/
def oklchWord : List Char := ['o', 'k', 'l', 'c', 'h']

/-- Attempt the three captures right after an `oklch(` occurrence:
maximal `[\d.]+` run, `\s+` run, `[\d.]+` run, `\s+` run, `[\d.]+` run. -/
def matchTriple (cs : List Char) : Option (List Char × List Char × List Char) :=
  let t1 := cs.takeWhile isDigitDot
  let r1 := cs.dropWhile isDigitDot
  if t1 = [] then none else
  let s1 := r1.takeWhile isSpaceChar
  let r2 := r1.dropWhile isSpaceChar
  if s1 = [] then none else
  let t2 := r2.takeWhile isDigitDot
  let r3 := r2.dropWhile isDigitDot
  if t2 = [] then none else
  let s2 := r3.takeWhile isSpaceChar
  let r4 := r3.dropWhile isSpaceChar
  if s2 = [] then none else
  let t3 := r4.takeWhile isDigitDot
  if t3 = [] then none else some (t1, t2, t3)

/-- Regex scan: try the pattern at every position, first full match wins. -/
def scanOklch : List Char → Option (List Char × List Char × List Char)
  | [] => none
  | c :: rest =>
      if startsWithChars oklchParen (c :: rest) then
        match matchTriple ((c :: rest).drop 6) with
        | some g => some g
        | none => scanOklch rest
      else scanOklch rest

/-- Outcome of `parseToOklch`: `nullOut` models the function returning
`null`; `parsed` is the regex branch's object; `delegated` marks the
fall-through to the external `culori` parser (not part of this repo). -/
inductive ParseOut where
  | nullOut : ParseOut
  | parsed : ParsedOklch → ParseOut
  | delegated : ParseOut
  deriving DecidableEq, Repr

/-- `parseToOklch` (src/unnamed/part_003 lines 19-44): empty input is
falsy and yields `null`; an `oklch`-prefixed string goes through the
regex branch; everything else goes to the external `culori` parser. -/
def parseToOklch (s : List Char) : ParseOut :=
  if s = [] then .nullOut
  else if startsWithChars oklchWord s then
    match scanOklch s with
    | some (t1, t2, t3) =>
        .parsed ⟨jsParseFloat t1, jsParseFloat t2, jsParseFloat t3⟩
    | none => .delegated
  else .delegated

/-! ### OKLCH adjustment operations (src/unnamed/part_003)

`adjustLightness`, `adjustChroma` and `shiftHue` parse their input, act on
the parsed `{l, c, h}` object and re-serialize.  They are embedded on the
parsed object directly (the parse-failure branch returns the input string
unchanged and is outside these definitions); the `|| 0` coalescing of
possibly-undefined fields has already happened on this representation. -/

/-- A parsed OKLCH color: the `{l, c, h}` object the adjustment helpers
operate on. -/
structure Oklch where
  l : ℚ
  c : ℚ
  h : ℚ
  deriving DecidableEq, Repr

/-- JS truncation toward zero, as used by the `%` remainder operator. -/
def jsTrunc (q : ℚ) : ℤ := if 0 ≤ q then ⌊q⌋ else ⌈q⌉

/-- The JS `%` operator: remainder with the sign of the dividend. -/
def jsMod (a b : ℚ) : ℚ := a - b * (jsTrunc (a / b) : ℚ)

/-- Lines 117-118 of src/unnamed/part_003:
`let newH = (h + degrees) % 360; if (newH < 0) newH += 360;`. -/
def hueNorm (x : ℚ) : ℚ :=
  if jsMod x 360 < 0 then jsMod x 360 + 360 else jsMod x 360

/-- `shiftHue` (src/unnamed/part_003 lines 113-121), on the parsed object. -/
def shiftHue (c : Oklch) (degrees : ℚ) : Oklch :=
  { c with h := hueNorm (c.h + degrees) }

/-- `adjustLightness` (lines 85-91): clamps the new lightness to [0,1]. -/
def adjustLightness (c : Oklch) (amount : ℚ) : Oklch :=
  { c with l := max 0 (min 1 (c.l + amount)) }

/-- `adjustChroma` (lines 99-105): clamps the new chroma to [0,0.4]. -/
def adjustChroma (c : Oklch) (amount : ℚ) : Oklch :=
  { c with c := max 0 (min (2/5) (c.c + amount)) }

/-! ### Contrast checker (src/lib/contrast-checker.js and
`getRelativeLuminance` of src/unnamed/part_003)

Colors reaching the luminance computation go through the external
`culori` conversion; for the hex inputs used by the claims that
conversion yields the 8-bit channels divided by 255, which is how a
display color is embedded here (`Rgb`, byte channels).  The irrational
`Math.pow(x, 2.4)` of the gamma expansion is the explicit parameter
`pw`. -/

/-- JS `Math.round`: round half toward positive infinity, `⌊x + 1/2⌋`,
written with the computable `Rat.floor` so that closed statements
evaluate by reduction. -/
def jsRound (q : ℚ) : ℤ := Rat.floor (q + 1 / 2)

/-- A display color: three 8-bit sRGB channels. -/
structure Rgb where
  r : ℕ
  g : ℕ
  b : ℕ
  deriving DecidableEq, Repr

/-- `toLinear` inside `getRelativeLuminance` (src/unnamed/part_003 line
217): `c <= 0.03928 ? c / 12.92 : Math.pow((c + 0.055) / 1.055, 2.4)`. -/
def toLinear (pw : ℚ → ℚ) (c : ℚ) : ℚ :=
  if c ≤ 3928 / 100000 then c / (1292 / 100) else pw ((c + 55 / 1000) / (1055 / 1000))

/-- `getRelativeLuminance` (src/unnamed/part_003 lines 211-224) on a
display color: `0.2126*lr + 0.7152*lg + 0.0722*lb`. -/
def getRelativeLuminance (pw : ℚ → ℚ) (c : Rgb) : ℚ :=
  2126 / 10000 * toLinear pw ((c.r : ℚ) / 255)
    + 7152 / 10000 * toLinear pw ((c.g : ℚ) / 255)
    + 722 / 10000 * toLinear pw ((c.b : ℚ) / 255)

/-- `WCAG_THRESHOLDS.AA_NORMAL` (src/lib/contrast-checker.js line 13). -/
def AA_NORMAL : ℚ := 9 / 2

/-- `WCAG_THRESHOLDS.AA_LARGE` (line 14). -/
def AA_LARGE : ℚ := 3

/-- `WCAG_THRESHOLDS.AAA_NORMAL` (line 15). -/
def AAA_NORMAL : ℚ := 7

/-- `WCAG_THRESHOLDS.AAA_LARGE` (line 16). -/
def AAA_LARGE : ℚ := 9 / 2

/-- `getContrastRatio` (src/lib/contrast-checker.js lines 27-35). -/
def getContrastRatio (pw : ℚ → ℚ) (foreground background : Rgb) : ℚ :=
  let lum1 := getRelativeLuminance pw foreground
  let lum2 := getRelativeLuminance pw background
  (max lum1 lum2 + 1 / 20) / (min lum1 lum2 + 1 / 20)

/-- `getComplianceLevel` (src/lib/contrast-checker.js lines 66-71). -/
def getComplianceLevel (ratio : ℚ) : String :=
  if ratio ≥ AAA_NORMAL then "AAA"
  else if ratio ≥ AA_NORMAL then "AA"
  else if ratio ≥ AA_LARGE then "AA Large"
  else "Fail"

/-- `getContrastScore` (src/lib/contrast-checker.js lines 79-84). -/
def getContrastScore (ratio : ℚ) : String :=
  if ratio ≥ 7 then "excellent"
  else if ratio ≥ 9 / 2 then "good"
  else if ratio ≥ 3 then "acceptable"
  else "poor"

/-- The `passes` object of `checkContrast`. -/
structure ContrastPasses where
  aa : Bool
  aaLarge : Bool
  aaa : Bool
  aaaLarge : Bool
  deriving DecidableEq, Repr

/-- The object returned by `checkContrast`. -/
structure ContrastResult where
  ratio : ℚ
  passes : ContrastPasses
  level : String
  score : String
  deriving DecidableEq, Repr

/-- `checkContrast` (src/lib/contrast-checker.js lines 44-58): the
`ratio` field is rounded to two decimals (`Math.round(ratio*100)/100`,
JS `Math.round` is `⌊x + 1/2⌋`) while `passes`, `level` and `score` are
computed from the unrounded ratio. -/
def checkContrast (pw : ℚ → ℚ) (foreground background : Rgb) : ContrastResult :=
  let ratio := getContrastRatio pw foreground background
  { ratio := ((jsRound (ratio * 100) : ℤ) : ℚ) / 100
    passes :=
      { aa := decide (ratio ≥ AA_NORMAL)
        aaLarge := decide (ratio ≥ AA_LARGE)
        aaa := decide (ratio ≥ AAA_NORMAL)
        aaaLarge := decide (ratio ≥ AAA_LARGE) }
    level := getComplianceLevel ratio
    score := getContrastScore ratio }

/-! ### Color-blindness simulator (src/lib/color-blindness.js)

`simulateColorBlindness(color, type)` first normalizes `color` through
`toHexString` (external `culori`), so its numeric pipeline starts from a
display hex value; inputs are therefore embedded as `Rgb` byte triples.
The two irrational gamma steps `Math.pow(x, 2.4)` and
`Math.pow(x, 1/2.4)` are the explicit parameters `pw24` and `pwInv`. -/

/-- A rational 3-vector. -/
structure Vec3 where
  x : ℚ
  y : ℚ
  z : ℚ
  deriving DecidableEq, Repr

/-- A rational 3x3 matrix, given by rows. -/
structure Mat3 where
  row0 : Vec3
  row1 : Vec3
  row2 : Vec3
  deriving DecidableEq, Repr

/-- `multiplyMatrix` (src/lib/color-blindness.js lines 84-90). -/
def multiplyMatrix (m : Mat3) (v : Vec3) : Vec3 :=
  { x := m.row0.x * v.x + m.row0.y * v.y + m.row0.z * v.z
    y := m.row1.x * v.x + m.row1.y * v.y + m.row1.z * v.z
    z := m.row2.x * v.x + m.row2.y * v.y + m.row2.z * v.z }

/-- `rgb2lms` of `BRETTEL_MATRICES` (shared by all three types). -/
def rgb2lms : Mat3 :=
  { row0 := ⟨31399022 / 100000000, 63951294 / 100000000, 4649755 / 100000000⟩
    row1 := ⟨15537241 / 100000000, 75789446 / 100000000, 8670142 / 100000000⟩
    row2 := ⟨1775239 / 100000000, 10944209 / 100000000, 87256922 / 100000000⟩ }

/-- `lms2rgb` of `BRETTEL_MATRICES` (shared by all three types). -/
def lms2rgb : Mat3 :=
  { row0 := ⟨547221206 / 100000000, -464196010 / 100000000, 16963708 / 100000000⟩
    row1 := ⟨-112524190 / 100000000, 229317094 / 100000000, -16789520 / 100000000⟩
    row2 := ⟨2980165 / 100000000, -19318073 / 100000000, 116364789 / 100000000⟩ }

/-- Property names a plain JS object literal inherits from
`Object.prototype` (methods, plus the `__proto__` and legacy accessor
members): for these keys `BRETTEL_MATRICES[key]` is a truthy function or
object, not `undefined`. -/
def objectProtoKeys : List String :=
  ["constructor", "hasOwnProperty", "isPrototypeOf", "propertyIsEnumerable",
    "toLocaleString", "toString", "valueOf", "__proto__", "__defineGetter__",
    "__defineSetter__", "__lookupGetter__", "__lookupSetter__"]

/-- Result of the JS property read `BRETTEL_MATRICES[type]`: an own key
yields the matrix record, an `Object.prototype` key yields a truthy
inherited member carrying no `rgb2lms` field, anything else is
`undefined`. -/
inductive BrettelLookup where
  | own : Mat3 → BrettelLookup
  | inherited : BrettelLookup
  | undefined : BrettelLookup
  deriving DecidableEq, Repr

/-- `BRETTEL_MATRICES[type]` (src/lib/color-blindness.js line 142) with
JS prototype-chain semantics; for own keys the value is the
type-specific `sim` projection (the shared `rgb2lms`/`lms2rgb` are the
constants above). -/
def brettelLookup (cvdType : String) : BrettelLookup :=
  if cvdType = "protanopia" then .own
      { row0 := ⟨0, 202344377 / 100000000, -252581341 / 100000000⟩
        row1 := ⟨0, 1, 0⟩
        row2 := ⟨0, 0, 1⟩ }
  else if cvdType = "deuteranopia" then .own
      { row0 := ⟨1, 0, 0⟩
        row1 := ⟨49421036 / 100000000, 0, 124827314 / 100000000⟩
        row2 := ⟨0, 0, 1⟩ }
  else if cvdType = "tritanopia" then .own
      { row0 := ⟨1, 0, 0⟩
        row1 := ⟨0, 1, 0⟩
        row2 := ⟨-86744736 / 100000000, 186727089 / 100000000, 0⟩ }
  else if cvdType ∈ objectProtoKeys then .inherited
  else .undefined

/-- The uncaught TypeError raised when `matrices` is a truthy inherited
member, so `matrices.rgb2lms` is `undefined` and `multiplyMatrix` reads
`matrix[0][0]`. -/
def protoLookupTypeError : String :=
  "TypeError: Cannot read properties of undefined (reading '0')"

/-- `srgbToLinear` (src/lib/color-blindness.js lines 95-97). -/
def srgbToLinear (pw24 : ℚ → ℚ) (c : ℚ) : ℚ :=
  if c ≤ 4045 / 100000 then c / (1292 / 100) else pw24 ((c + 55 / 1000) / (1055 / 1000))

/-- `linearToSrgb` (src/lib/color-blindness.js lines 102-104). -/
def linearToSrgb (pwInv : ℚ → ℚ) (c : ℚ) : ℚ :=
  if c ≤ 31308 / 10000000 then 1292 / 100 * c else 1055 / 1000 * pwInv c - 55 / 1000

/-- The per-channel clamp of `rgbToHex` (src/lib/color-blindness.js line
122): `Math.max(0, Math.min(255, Math.round(v * 255)))`. -/
def clampByte (v : ℚ) : ℤ :=
  max 0 (min 255 (jsRound (v * 255)))

/-- `rgbToHex` (src/lib/color-blindness.js lines 121-127), as the byte
triple the hex string denotes. -/
def rgbToHexBytes (v : Vec3) : Rgb :=
  { r := (clampByte v.x).toNat
    g := (clampByte v.y).toNat
    b := (clampByte v.z).toNat }

/-- `simulateAchromatopsia` (src/lib/color-blindness.js lines 174-182):
luminance-weighted grayscale applied equally to all channels. -/
def simulateAchromatopsia (c : Rgb) : Rgb :=
  let gray := 2126 / 10000 * ((c.r : ℚ) / 255)
    + 7152 / 10000 * ((c.g : ℚ) / 255)
    + 722 / 10000 * ((c.b : ℚ) / 255)
  rgbToHexBytes ⟨gray, gray, gray⟩

/-- `simulateColorBlindness` (src/lib/color-blindness.js lines 136-169).
The returned `Bool` records whether the `console.warn` branch for a
falsy lookup ran; that branch returns `toHexString(color)`, i.e. the
already-normalized display color unchanged.  A truthy inherited lookup
(an `Object.prototype` key) skips the warn branch and then crashes in
`multiplyMatrix` on `matrices.rgb2lms === undefined`; the function is
therefore fallible and the crash is the `Except.error` case. -/
def simulateColorBlindness (pw24 pwInv : ℚ → ℚ) (c : Rgb) (cvdType : String) :
    Except String (Bool × Rgb) :=
  if cvdType = "achromatopsia" then .ok (false, simulateAchromatopsia c)
  else
    match brettelLookup cvdType with
    | .undefined => .ok (true, c)
    | .inherited => .error protoLookupTypeError
    | .own sim =>
        let linearRgb : Vec3 :=
          ⟨srgbToLinear pw24 ((c.r : ℚ) / 255),
            srgbToLinear pw24 ((c.g : ℚ) / 255),
            srgbToLinear pw24 ((c.b : ℚ) / 255)⟩
        let lms := multiplyMatrix rgb2lms linearRgb
        let simLms := multiplyMatrix sim lms
        let simRgb := multiplyMatrix lms2rgb simLms
        .ok (false, rgbToHexBytes
          ⟨linearToSrgb pwInv simRgb.x,
            linearToSrgb pwInv simRgb.y,
            linearToSrgb pwInv simRgb.z⟩)

/-! ### Palette extraction (src/unnamed/part_000, `useColorExtraction`)

The hook's numeric core (`getLuminance`, `medianCut`, `samplePixels`,
`sortColorsByImportance`, `getPaletteRole`) is embedded directly; the
canvas/file plumbing around it is represented by an `ImageFile` record
carrying the decoded RGBA quadruples (ImageData length is always a
multiple of 4, so the flat byte array is embedded as quadruples).  JS
`Array.prototype.sort` is stable; it is embedded as a stable insertion
sort driven by the source comparator. -/

/-- One RGBA sample of `ImageData.data`. -/
structure Rgba where
  r : ℕ
  g : ℕ
  b : ℕ
  a : ℕ
  deriving DecidableEq, Repr

/-- One sampled pixel `{r, g, b}` (src/unnamed/part_000 line 100). -/
structure Pixel where
  r : ℤ
  g : ℤ
  b : ℤ
  deriving DecidableEq, Repr

/-- One leaf bucket produced by `medianCut` (lines 50-57). -/
structure Bucket where
  r : ℤ
  g : ℤ
  b : ℤ
  count : ℕ
  deriving DecidableEq, Repr

/-- `getLuminance` of the hook (src/unnamed/part_000 lines 24-30); same
piecewise gamma as `getRelativeLuminance`, on 0-255 channels. -/
def getLuminance (pw : ℚ → ℚ) (r g b : ℚ) : ℚ :=
  2126 / 10000 * toLinear pw (r / 255)
    + 7152 / 10000 * toLinear pw (g / 255)
    + 722 / 10000 * toLinear pw (b / 255)

/-- Stable insertion into a list sorted by `keep`: `x` goes after every
element `y` with `keep y x` (for an ascending comparator,
`keep y x = key y ≤ key x`, matching JS stable sort ties). -/
def insertSorted {α : Type} (keep : α → α → Bool) (x : α) : List α → List α
  | [] => [x]
  | y :: ys => if keep y x then y :: insertSorted keep x ys else x :: y :: ys

/-- Stable sort (JS `Array.prototype.sort`): left fold of stable
insertions, so equal keys keep their original order. -/
def stableSort {α : Type} (keep : α → α → Bool) (l : List α) : List α :=
  l.foldl (fun acc x => insertSorted keep x acc) []

/-- The three channels of a `Pixel`. -/
inductive Channel where
  | r : Channel
  | g : Channel
  | b : Channel
  deriving DecidableEq, Repr

/-- Channel projection `p[channel]`. -/
def chVal : Channel → Pixel → ℤ
  | .r, p => p.r
  | .g, p => p.g
  | .b, p => p.b

/-- `Math.max(...values)` over a nonempty pixel list (0 if empty; the
source only evaluates it on nonempty buckets). -/
def maxVal (f : Pixel → ℤ) : List Pixel → ℤ
  | [] => 0
  | p :: ps => ps.foldl (fun m q => max m (f q)) (f p)

/-- `Math.min(...values)` over a nonempty pixel list (0 if empty). -/
def minVal (f : Pixel → ℤ) : List Pixel → ℤ
  | [] => 0
  | p :: ps => ps.foldl (fun m q => min m (f q)) (f p)

/-- The `range` of one channel across a bucket (line 65). -/
def channelRange (ps : List Pixel) (ch : Channel) : ℤ :=
  maxVal (chVal ch) ps - minVal (chVal ch) ps

/-- Lines 61-69: build the three `{channel, range}` records, sort them
descending by range with a stable sort, and take the first channel.
Stability makes this the earliest of `r, g, b` with the greatest range,
which is what this definition computes. -/
def widestChannel (ps : List Pixel) : Channel :=
  let rr := channelRange ps .r
  let rg := channelRange ps .g
  let rb := channelRange ps .b
  if rr ≥ rg ∧ rr ≥ rb then .r else if rg ≥ rb then .g else .b

/-- The bucket-averaging base case of `medianCut` (lines 38-57):
equal-weight average of each channel, `Math.round`ed; note
`const count = pixels.length || 1`, so an empty bucket reports count 1
and representative (0,0,0). -/
def averageBucket (ps : List Pixel) : Bucket :=
  let count : ℕ := if ps.length = 0 then 1 else ps.length
  let sumR : ℤ := ps.foldl (fun s p => s + p.r) 0
  let sumG : ℤ := ps.foldl (fun s p => s + p.g) 0
  let sumB : ℤ := ps.foldl (fun s p => s + p.b) 0
  { r := jsRound ((sumR : ℚ) / (count : ℚ))
    g := jsRound ((sumG : ℚ) / (count : ℚ))
    b := jsRound ((sumB : ℚ) / (count : ℚ))
    count := count }

/-- Ascending stable-sort comparator `(a, b) => a[ch] - b[ch]` (line 72). -/
def pixLe (ch : Channel) (a b : Pixel) : Bool := chVal ch a ≤ chVal ch b

/-- `medianCut` recursion, structured on the remaining depth budget
`fuel = maxDepth - depth` so that it computes by reduction; the facade
`medianCut` below restores the source signature.  Base case when the
budget is exhausted or the bucket is empty; otherwise sort by the widest
channel and split at `mid = ⌊length / 2⌋`. -/
def medianCutAux : ℕ → List Pixel → List Bucket
  | 0, pixels => [averageBucket pixels]
  | fuel + 1, pixels =>
      if pixels.isEmpty then [averageBucket pixels]
      else
        let sorted := stableSort (pixLe (widestChannel pixels)) pixels
        let mid := sorted.length / 2
        medianCutAux fuel (sorted.take mid) ++ medianCutAux fuel (sorted.drop mid)

/-- `medianCut(pixels, depth, maxDepth)` (src/unnamed/part_000 lines
36-79): the guard `depth >= maxDepth` is exactly `maxDepth - depth = 0`
on naturals. -/
def medianCut (pixels : List Pixel) (depth maxDepth : ℕ) : List Bucket :=
  medianCutAux (maxDepth - depth) pixels

/-- `samplePixels` (lines 84-104): stride `step = max(1, ⌊pixels/sampleSize⌋)`
through the quadruples, skipping translucent (`a < 128`) and
near-black/near-white (`luminance ∉ [0.05, 0.95]`) samples. -/
def samplePixels (pw : ℚ → ℚ) (data : List Rgba) (sampleSize : ℕ) : List Pixel :=
  let step := max 1 (data.length / sampleSize)
  (List.range ((data.length + step - 1) / step)).filterMap fun k =>
    match data.get? (k * step) with
    | none => none
    | some q =>
        if q.a < 128 then none
        else
          let lum := getLuminance pw (q.r : ℚ) (q.g : ℚ) (q.b : ℚ)
          if lum < 1 / 20 ∨ lum > 19 / 20 then none
          else some ⟨(q.r : ℤ), (q.g : ℤ), (q.b : ℤ)⟩

/-- The saturation proxy of `sortColorsByImportance` (lines 127-128). -/
def bucketSat (a : Bucket) : ℤ := max a.r (max a.g a.b) - min a.r (min a.g a.b)

/-- The importance score `count * (1 + sat / 255)` (lines 129-130). -/
def bucketScore (a : Bucket) : ℚ := (a.count : ℚ) * (1 + (bucketSat a : ℚ) / 255)

/-- Descending stable-sort comparator of `sortColorsByImportance`. -/
def bucketGe (a b : Bucket) : Bool := bucketScore a ≥ bucketScore b

/-- `sortColorsByImportance` (lines 124-133). -/
def sortColorsByImportance (colors : List Bucket) : List Bucket :=
  stableSort bucketGe colors

/-- `getPaletteRole` (src/unnamed/part_000 lines 269-286). -/
def getPaletteRole (index : ℕ) (luminance : ℚ) : String :=
  if index = 0 then "primary"
  else if luminance > 8 / 10 then "background"
  else if luminance < 2 / 10 then "foreground"
  else if index = 1 then "accent"
  else if 3 / 10 < luminance ∧ luminance < 7 / 10 then "muted"
  else "secondary"

/-- One entry of the extracted palette (lines 198-210; the `hex` and
`oklch` strings are serializations of `rgb` and are omitted). -/
structure PaletteEntry where
  rgb : Bucket
  luminance : ℚ
  role : String
  deriving DecidableEq, Repr

/-- The decoded image an extraction runs on: its MIME type and its
RGBA samples. -/
structure ImageFile where
  ftype : String
  data : List Rgba

/-- Error message of the missing/invalid-file branch (line 149). -/
def noImageMsg : String := "Please provide a valid image file"

/-- Error message of the under-sampling branch (line 189). -/
def underSampleMsg : String := "Not enough distinct colors in image"

/-- Terminal outcome of `extractFromFile`: the hook either sets an error
message (ERROR state) or a palette (SUCCESS state). -/
inductive ExtractOutcome where
  | failure : String → ExtractOutcome
  | success : List PaletteEntry → ExtractOutcome
  deriving DecidableEq

/-- The success path of `extractFromFile` (lines 192-210): median cut at
depth 3, importance sort, top 5, promote with luminance and role. -/
def extractPalette (pw : ℚ → ℚ) (pixels : List Pixel) : List PaletteEntry :=
  let colors := (sortColorsByImportance (medianCut pixels 0 3)).take 5
  (colors.zip (List.range colors.length)).map fun ci =>
    let lum := getLuminance pw (ci.1.r : ℚ) (ci.1.g : ℚ) (ci.1.b : ℚ)
    { rgb := ci.1, luminance := lum, role := getPaletteRole ci.2 lum }

/-- `extractFromFile` (src/unnamed/part_000 lines 147-218), with the
image decoding (canvas, object URL) abstracted into the `ImageFile`
input; `none` models a missing file. -/
def extractFromFile (pw : ℚ → ℚ) (file : Option ImageFile) : ExtractOutcome :=
  match file with
  | none => .failure noImageMsg
  | some f =>
      if ¬ startsWithChars "image/".data f.ftype.data then .failure noImageMsg
      else
        let pixels := samplePixels pw f.data 10000
        if pixels.length < 10 then .failure underSampleMsg
        else .success (extractPalette pw pixels)

/-! ### Concrete gamma stand-ins used for closed statements

The embedding keeps the irrational `Math.pow` gamma as a function
parameter; these instances are used where a closed statement needs a
concrete value. -/

/-- Gamma stand-in fixing `pw 1 = 1` (exact, as for `Math.pow(1, 2.4)`)
and taking the value `0.1329` elsewhere, which lies inside the true
value of `((0.4 + 0.055) / 1.055) ^ 2.4 ≈ 0.13287`. -/
def pwDemo : ℚ → ℚ := fun x => if x = 1 then 1 else 1329 / 10000

/-- Gamma stand-in fixing `pw 1 = 1` and taking `0.1835` below 1, chosen
so the white/gray contrast ratio falls just below 4.5 while rounding to
4.5. -/
def pwThreshold : ℚ → ℚ := fun x => if x < 1 then 367 / 2000 else 1

/-! ## Helper lemmas -/

theorem jsRound_eq (q : ℚ) : jsRound q = ⌊q + 1 / 2⌋ := by
  rw [jsRound, Rat.floor_def', ← Rat.floor_def]

theorem toLinear_nonneg (pw : ℚ → ℚ) (hpw : ∀ x, 0 ≤ pw x) (c : ℚ) (hc : 0 ≤ c) :
    0 ≤ toLinear pw c := by
  unfold toLinear
  split
  · positivity
  · exact hpw _

theorem getRelativeLuminance_nonneg (pw : ℚ → ℚ) (hpw : ∀ x, 0 ≤ pw x) (c : Rgb) :
    0 ≤ getRelativeLuminance pw c := by
  unfold getRelativeLuminance
  have hr := toLinear_nonneg pw hpw ((c.r : ℚ) / 255) (by positivity)
  have hg := toLinear_nonneg pw hpw ((c.g : ℚ) / 255) (by positivity)
  have hb := toLinear_nonneg pw hpw ((c.b : ℚ) / 255) (by positivity)
  nlinarith

theorem mul360_floor_le (x : ℚ) : 360 * (⌊x / 360⌋ : ℚ) ≤ x := by
  have hfl : (⌊x / 360⌋ : ℚ) ≤ x / 360 := Int.floor_le _
  have h := mul_le_mul_of_nonneg_left hfl (by norm_num : (0 : ℚ) ≤ 360)
  calc 360 * (⌊x / 360⌋ : ℚ) ≤ 360 * (x / 360) := h
    _ = x := by ring

theorem lt_mul360_floor_add (x : ℚ) : x < 360 * (⌊x / 360⌋ : ℚ) + 360 := by
  have hfl : x / 360 < (⌊x / 360⌋ : ℚ) + 1 := Int.lt_floor_add_one _
  have h := mul_lt_mul_of_pos_left hfl (by norm_num : (0 : ℚ) < 360)
  calc x = 360 * (x / 360) := by ring
    _ < 360 * ((⌊x / 360⌋ : ℚ) + 1) := h
    _ = 360 * (⌊x / 360⌋ : ℚ) + 360 := by ring

/-- The source's remainder-plus-correction hue normalization computes the
mathematical floor-mod into `[0, 360)`. -/
theorem hueNorm_eq (x : ℚ) : hueNorm x = x - 360 * (⌊x / 360⌋ : ℚ) := by
  have h1 := mul360_floor_le x
  have h2 := lt_mul360_floor_add x
  unfold hueNorm jsMod jsTrunc
  by_cases h : 0 ≤ x / 360
  · rw [if_pos h, if_neg (not_lt.mpr (by linarith))]
  · rw [if_neg h]
    have c1 : ⌊x / 360⌋ ≤ ⌈x / 360⌉ := Int.floor_le_ceil _
    have c2 : ⌈x / 360⌉ ≤ ⌊x / 360⌋ + 1 := Int.ceil_le_floor_add_one _
    rcases (by omega : ⌈x / 360⌉ = ⌊x / 360⌋ ∨ ⌈x / 360⌉ = ⌊x / 360⌋ + 1) with hc | hc
    · rw [hc, if_neg (not_lt.mpr (by linarith))]
    · rw [hc]
      push_cast
      rw [if_pos (by linarith)]
      ring

theorem hueNorm_nonneg (x : ℚ) : 0 ≤ hueNorm x := by
  rw [hueNorm_eq]
  linarith [mul360_floor_le x]

theorem hueNorm_lt_360 (x : ℚ) : hueNorm x < 360 := by
  rw [hueNorm_eq]
  linarith [lt_mul360_floor_add x]

theorem hueNorm_add_360 (x : ℚ) : hueNorm (x + 360) = hueNorm x := by
  rw [hueNorm_eq, hueNorm_eq]
  have h : (x + 360) / 360 = x / 360 + 1 := by ring
  rw [h, Int.floor_add_one]
  push_cast
  ring

/-! ## Claims -/

/-- Claim C4: the contrast ratio is `(max(L1,L2)+0.05)/(min(L1,L2)+0.05)`
over the two relative luminances, it is symmetric in its two color
arguments, and it equals 1 on any pair of equal colors (the gamma
stand-in being nonnegative, as `Math.pow(x, 2.4)` is on the sRGB
domain). -/
theorem contrastRatio_symm_refl (pw : ℚ → ℚ) (hpw : ∀ x, 0 ≤ pw x) :
    (∀ a b : Rgb, getContrastRatio pw a b =
      (max (getRelativeLuminance pw a) (getRelativeLuminance pw b) + 1 / 20) /
        (min (getRelativeLuminance pw a) (getRelativeLuminance pw b) + 1 / 20)) ∧
    (∀ a b : Rgb, getContrastRatio pw a b = getContrastRatio pw b a) ∧
    (∀ c : Rgb, getContrastRatio pw c c = 1) := by
  refine ⟨fun a b => rfl, fun a b => ?_, fun c => ?_⟩
  · simp only [getContrastRatio]
    rw [max_comm, min_comm]
  · have h0 : 0 ≤ getRelativeLuminance pw c := getRelativeLuminance_nonneg pw hpw c
    simp only [getContrastRatio]
    rw [max_self, min_self]
    exact div_self (by linarith)

/-- Witness for C4 at the zero gamma stand-in and black-on-black. -/
theorem contrastRatio_symm_refl_witness :
    (∀ x : ℚ, 0 ≤ (fun _ : ℚ => (0 : ℚ)) x) ∧
      getContrastRatio (fun _ : ℚ => (0 : ℚ)) ⟨0, 0, 0⟩ ⟨0, 0, 0⟩ = 1 :=
  ⟨fun _ => le_refl 0,
    (contrastRatio_symm_refl (fun _ : ℚ => (0 : ℚ)) (fun _ => le_refl 0)).2.2 ⟨0, 0, 0⟩⟩

/-- Claim C5: for every input color, simulating achromatopsia bypasses
the matrix pipeline (the result does not depend on the gamma parameters,
never reaches the matrix lookup, and succeeds with
`simulateAchromatopsia`), computes the luminance-weighted grayscale
`0.2126R+0.7152G+0.0722B` applied equally to all channels, and therefore
always returns a color with R = G = B. -/
theorem simulate_achromatopsia_gray (pw24 pwInv : ℚ → ℚ) (c : Rgb) :
    simulateColorBlindness pw24 pwInv c "achromatopsia" =
      .ok (false, simulateAchromatopsia c) ∧
    simulateAchromatopsia c =
      rgbToHexBytes
        ⟨2126 / 10000 * ((c.r : ℚ) / 255) + 7152 / 10000 * ((c.g : ℚ) / 255)
            + 722 / 10000 * ((c.b : ℚ) / 255),
          2126 / 10000 * ((c.r : ℚ) / 255) + 7152 / 10000 * ((c.g : ℚ) / 255)
            + 722 / 10000 * ((c.b : ℚ) / 255),
          2126 / 10000 * ((c.r : ℚ) / 255) + 7152 / 10000 * ((c.g : ℚ) / 255)
            + 722 / 10000 * ((c.b : ℚ) / 255)⟩ ∧
    (simulateAchromatopsia c).r = (simulateAchromatopsia c).g ∧
    (simulateAchromatopsia c).g = (simulateAchromatopsia c).b := by
  refine ⟨?_, rfl, rfl, rfl⟩
  unfold simulateColorBlindness
  rw [if_pos rfl]

/-- Counterexample to Claim C6 as stated: `"toString"` is not one of the
four supported CVD types, yet `BRETTEL_MATRICES["toString"]` finds the
truthy inherited `Object.prototype.toString`, the warn branch is
skipped, and `multiplyMatrix` throws a TypeError on
`matrices.rgb2lms === undefined` instead of returning the color
unchanged. -/
theorem simulate_proto_key_crash_counterexample :
    ("toString" ≠ "protanopia" ∧ "toString" ≠ "deuteranopia" ∧
      "toString" ≠ "tritanopia" ∧ "toString" ≠ "achromatopsia") ∧
    simulateColorBlindness (fun _ : ℚ => (0 : ℚ)) (fun _ : ℚ => (0 : ℚ))
        ⟨10, 20, 30⟩ "toString" =
      .error protoLookupTypeError :=
  ⟨⟨by decide, by decide, by decide, by decide⟩, rfl⟩

/-- Claim C6 (amended): for every color and every `cvdType` string that
is neither one of the four supported types nor a property name inherited
from `Object.prototype`, the lookup is `undefined` (falsy), so
`simulateColorBlindness` takes the warning branch (first component
`true` records the `console.warn`) and returns the display-normalized
color unchanged without crashing; for an inherited property name such as
`"toString"` the lookup is truthy, the warn branch is skipped, and the
call throws a TypeError in `multiplyMatrix`. -/
theorem simulate_unknown_type_dichotomy (pw24 pwInv : ℚ → ℚ) (c : Rgb)
    (cvdType : String)
    (h1 : cvdType ≠ "protanopia") (h2 : cvdType ≠ "deuteranopia")
    (h3 : cvdType ≠ "tritanopia") (h4 : cvdType ≠ "achromatopsia") :
    (cvdType ∉ objectProtoKeys →
      simulateColorBlindness pw24 pwInv c cvdType = .ok (true, c)) ∧
    (cvdType ∈ objectProtoKeys →
      simulateColorBlindness pw24 pwInv c cvdType = .error protoLookupTypeError) := by
  constructor <;> intro h5 <;>
    · unfold simulateColorBlindness
      rw [if_neg h4]
      unfold brettelLookup
      rw [if_neg h1, if_neg h2, if_neg h3]
      first
        | rw [if_neg h5]
        | rw [if_pos h5]

/-- Witness for C6 at the unsupported, non-inherited type string
`"monochromacy"`. -/
theorem simulate_unknown_type_dichotomy_witness :
    ("monochromacy" ≠ "protanopia" ∧ "monochromacy" ≠ "deuteranopia" ∧
      "monochromacy" ≠ "tritanopia" ∧ "monochromacy" ≠ "achromatopsia" ∧
      "monochromacy" ∉ objectProtoKeys) ∧
    simulateColorBlindness (fun _ : ℚ => (0 : ℚ)) (fun _ : ℚ => (0 : ℚ))
        ⟨10, 20, 30⟩ "monochromacy" =
      .ok (true, ⟨10, 20, 30⟩) :=
  ⟨⟨by decide, by decide, by decide, by decide, by decide⟩,
    (simulate_unknown_type_dichotomy (fun _ : ℚ => (0 : ℚ)) (fun _ : ℚ => (0 : ℚ))
        ⟨10, 20, 30⟩ "monochromacy"
        (by decide) (by decide) (by decide) (by decide)).1 (by decide)⟩

/-- Claim C10: the `ratio` field of `checkContrast` is the exact ratio
rounded to two decimals while the pass flags and level come from the
unrounded ratio; consequently there is an input (here with the
`pwThreshold` gamma stand-in) whose returned ratio is the threshold 4.5
while the AA pass flag is `false`. -/
theorem checkContrast_rounded_field :
    (∀ (pw : ℚ → ℚ) (fg bg : Rgb),
      (checkContrast pw fg bg).ratio =
        ((jsRound (getContrastRatio pw fg bg * 100) : ℤ) : ℚ) / 100 ∧
      (checkContrast pw fg bg).passes.aa = decide (getContrastRatio pw fg bg ≥ AA_NORMAL) ∧
      (checkContrast pw fg bg).passes.aaa = decide (getContrastRatio pw fg bg ≥ AAA_NORMAL) ∧
      (checkContrast pw fg bg).level = getComplianceLevel (getContrastRatio pw fg bg)) ∧
    (checkContrast pwThreshold ⟨255, 255, 255⟩ ⟨102, 102, 102⟩).ratio = 9 / 2 ∧
    (checkContrast pwThreshold ⟨255, 255, 255⟩ ⟨102, 102, 102⟩).passes.aa = false := by
  refine ⟨fun pw fg bg => ⟨rfl, rfl, rfl, rfl⟩, ?_, ?_⟩ <;>
    norm_num [checkContrast, getContrastRatio, getRelativeLuminance, toLinear,
      pwThreshold, jsRound_eq, AA_NORMAL]

/-- Claim C9: for every parsed color and shift amount the resulting hue
lies in `[0, 360)` (the `%`-with-negative-wraparound normalization), and
shifting by 370 degrees equals shifting by 10 degrees. -/
theorem shiftHue_range_wrap (c : Oklch) (degrees : ℚ) :
    (0 ≤ (shiftHue c degrees).h ∧ (shiftHue c degrees).h < 360) ∧
    shiftHue c 370 = shiftHue c 10 := by
  refine ⟨⟨hueNorm_nonneg _, hueNorm_lt_360 _⟩, ?_⟩
  unfold shiftHue
  have h : c.h + 370 = c.h + 10 + 360 := by ring
  rw [h, hueNorm_add_360]

/-- Claim C7 (amended): the clamping operations of the core — lightness
and chroma adjustment, hue normalization, display-byte clamping — are
total and keep their results inside the documented ranges, and the
contrast ratio never falls below 1 for a nonnegative gamma stand-in; the
oklch parse branch is exempt (see the counterexample: it performs no
domain validation). -/
theorem clamping_total_in_range :
    (∀ (c : Oklch) (amount : ℚ),
      0 ≤ (adjustLightness c amount).l ∧ (adjustLightness c amount).l ≤ 1) ∧
    (∀ (c : Oklch) (amount : ℚ),
      0 ≤ (adjustChroma c amount).c ∧ (adjustChroma c amount).c ≤ 2 / 5) ∧
    (∀ (c : Oklch) (degrees : ℚ),
      0 ≤ (shiftHue c degrees).h ∧ (shiftHue c degrees).h < 360) ∧
    (∀ v : ℚ, 0 ≤ clampByte v ∧ clampByte v ≤ 255) ∧
    (∀ pw : ℚ → ℚ, (∀ x, 0 ≤ pw x) → ∀ fg bg : Rgb,
      1 ≤ getContrastRatio pw fg bg) := by
  refine ⟨fun c amount => ⟨le_max_left _ _, max_le (by norm_num) (min_le_left _ _)⟩,
    fun c amount => ⟨le_max_left _ _, max_le (by norm_num) (min_le_left _ _)⟩,
    fun c degrees => ⟨hueNorm_nonneg _, hueNorm_lt_360 _⟩,
    fun v => ⟨le_max_left _ _, max_le (by norm_num) (min_le_left _ _)⟩,
    fun pw hpw fg bg => ?_⟩
  have h1 := getRelativeLuminance_nonneg pw hpw fg
  have h2 := getRelativeLuminance_nonneg pw hpw bg
  have hmin : 0 ≤ min (getRelativeLuminance pw fg) (getRelativeLuminance pw bg) :=
    le_min h1 h2
  have hmm : min (getRelativeLuminance pw fg) (getRelativeLuminance pw bg) ≤
      max (getRelativeLuminance pw fg) (getRelativeLuminance pw bg) := min_le_max
  simp only [getContrastRatio]
  exact (one_le_div (by linarith)).mpr (by linarith)

/-- Witness for C7 discharging the nonnegative-gamma hypothesis at the
zero stand-in on a black/white pair. -/
theorem clamping_total_in_range_witness :
    (∀ x : ℚ, 0 ≤ (fun _ : ℚ => (0 : ℚ)) x) ∧
      1 ≤ getContrastRatio (fun _ : ℚ => (0 : ℚ)) ⟨0, 0, 0⟩ ⟨255, 255, 255⟩ :=
  ⟨fun _ => le_refl 0,
    clamping_total_in_range.2.2.2.2 (fun _ : ℚ => (0 : ℚ)) (fun _ => le_refl 0)
      ⟨0, 0, 0⟩ ⟨255, 255, 255⟩⟩

/-- Counterexample to Claim C7 as stated: `parseToOklch` is a core
operation, the string inputs are valid-typed, yet the returned lightness
5 lies outside the documented range `[0,1]`, and on a dot-only first
token the returned lightness is `NaN` (embedded as `none`). -/
theorem parse_out_of_range_counterexample :
    parseToOklch ['o', 'k', 'l', 'c', 'h', '(', '5', ' ', '0', ' ', '0', ')'] =
      .parsed ⟨some 5, some 0, some 0⟩ ∧
    ¬ ((5 : ℚ) ≤ 1) ∧
    parseToOklch ['o', 'k', 'l', 'c', 'h', '(', '.', ' ', '0', ' ', '0', ')'] =
      .parsed ⟨none, some 0, some 0⟩ :=
  ⟨by decide, by norm_num, by decide⟩

/-- Claim C3: the compliance thresholds are AA 4.5, AA-large 3, AAA 7,
AAA-large 4.5; the level is the highest satisfied tier, else Fail; and on
white over `#666666` the returned ratio is 5.74 with level AA.  The
hypotheses pin the gamma stand-in to `Math.pow` facts: `1^2.4 = 1` and
`((0.4+0.055)/1.055)^2.4 = 0.13287… ∈ [0.1328, 0.1330]`. -/
theorem checkContrast_scenario (pw : ℚ → ℚ) (h1 : pw 1 = 1)
    (h2 : 1328 / 10000 ≤ pw (91 / 211)) (h3 : pw (91 / 211) ≤ 1330 / 10000) :
    AA_NORMAL = 9 / 2 ∧ AA_LARGE = 3 ∧ AAA_NORMAL = 7 ∧ AAA_LARGE = 9 / 2 ∧
    (∀ r : ℚ, 7 ≤ r → getComplianceLevel r = "AAA") ∧
    (∀ r : ℚ, 9 / 2 ≤ r → r < 7 → getComplianceLevel r = "AA") ∧
    (∀ r : ℚ, 3 ≤ r → r < 9 / 2 → getComplianceLevel r = "AA Large") ∧
    (∀ r : ℚ, r < 3 → getComplianceLevel r = "Fail") ∧
    (checkContrast pw ⟨255, 255, 255⟩ ⟨102, 102, 102⟩).ratio = 287 / 50 ∧
    (checkContrast pw ⟨255, 255, 255⟩ ⟨102, 102, 102⟩).level = "AA" := by
  have lw : getRelativeLuminance pw ⟨255, 255, 255⟩ = 1 := by
    norm_num [getRelativeLuminance, toLinear, h1]
  have lg : getRelativeLuminance pw ⟨102, 102, 102⟩ = pw (91 / 211) := by
    norm_num [getRelativeLuminance, toLinear]
    linarith
  have hratio : getContrastRatio pw ⟨255, 255, 255⟩ ⟨102, 102, 102⟩ =
      21 / 20 / (pw (91 / 211) + 1 / 20) := by
    simp only [getContrastRatio, lw, lg]
    rw [max_eq_left (by linarith), min_eq_right (by linarith)]
    norm_num
  have hden : (0 : ℚ) < pw (91 / 211) + 1 / 20 := by linarith
  have hlow : 9 / 2 ≤ 21 / 20 / (pw (91 / 211) + 1 / 20) := by
    rw [le_div_iff₀ hden]
    linarith
  have hhigh : 21 / 20 / (pw (91 / 211) + 1 / 20) < 7 := by
    rw [div_lt_iff₀ hden]
    linarith
  refine ⟨rfl, rfl, rfl, rfl, ?_, ?_, ?_, ?_, ?_, ?_⟩
  · intro r hr
    simp only [getComplianceLevel, AAA_NORMAL, ge_iff_le]
    rw [if_pos hr]
  · intro r hr hr7
    simp only [getComplianceLevel, AAA_NORMAL, AA_NORMAL, ge_iff_le]
    rw [if_neg (not_le.mpr hr7), if_pos hr]
  · intro r hr hr45
    simp only [getComplianceLevel, AAA_NORMAL, AA_NORMAL, AA_LARGE, ge_iff_le]
    rw [if_neg (not_le.mpr (by linarith)), if_neg (not_le.mpr hr45), if_pos hr]
  · intro r hr
    simp only [getComplianceLevel, AAA_NORMAL, AA_NORMAL, AA_LARGE, ge_iff_le]
    rw [if_neg (not_le.mpr (by linarith)), if_neg (not_le.mpr (by linarith)),
      if_neg (not_le.mpr hr)]
  · simp only [checkContrast, hratio, jsRound_eq]
    have hfl : ⌊21 / 20 / (pw (91 / 211) + 1 / 20) * 100 + 1 / 2⌋ = (574 : ℤ) := by
      have e1 : 21 / 20 / (pw (91 / 211) + 1 / 20) * 100 =
          105 / (pw (91 / 211) + 1 / 20) := by ring
      rw [e1]
      apply Int.floor_eq_iff.mpr
      constructor
      · have : (1147 : ℚ) / 2 ≤ 105 / (pw (91 / 211) + 1 / 20) := by
          rw [le_div_iff₀ hden]
          linarith
        push_cast
        linarith
      · have : (105 : ℚ) / (pw (91 / 211) + 1 / 20) < 1149 / 2 := by
          rw [div_lt_iff₀ hden]
          linarith
        push_cast
        linarith
    rw [hfl]
    norm_num
  · simp only [checkContrast, hratio]
    simp only [getComplianceLevel, AAA_NORMAL, AA_NORMAL, ge_iff_le]
    rw [if_neg (not_le.mpr hhigh), if_pos hlow]

/-- Witness for C3: the `pwDemo` stand-in satisfies the gamma hypotheses
and yields ratio 5.74, level AA, on white over `#666666`. -/
theorem checkContrast_scenario_witness :
    (pwDemo 1 = 1 ∧ 1328 / 10000 ≤ pwDemo (91 / 211) ∧
      pwDemo (91 / 211) ≤ 1330 / 10000) ∧
    (checkContrast pwDemo ⟨255, 255, 255⟩ ⟨102, 102, 102⟩).ratio = 287 / 50 ∧
    (checkContrast pwDemo ⟨255, 255, 255⟩ ⟨102, 102, 102⟩).level = "AA" :=
  ⟨⟨by norm_num [pwDemo], by norm_num [pwDemo], by norm_num [pwDemo]⟩,
    (checkContrast_scenario pwDemo (by norm_num [pwDemo]) (by norm_num [pwDemo])
      (by norm_num [pwDemo])).2.2.2.2.2.2.2.2⟩

theorem jsRound_intCast (z : ℤ) : jsRound (z : ℚ) = z := by
  rw [jsRound_eq, Int.floor_int_add]
  norm_num

theorem insertSorted_replicate {α : Type} (keep : α → α → Bool) (p : α)
    (hp : keep p p = true) (n : ℕ) :
    insertSorted keep p (List.replicate n p) = List.replicate (n + 1) p := by
  induction n with
  | zero => rfl
  | succ n ih => simp [List.replicate_succ, insertSorted, hp, ih]

theorem foldl_insertSorted_replicate {α : Type} (keep : α → α → Bool) (p : α)
    (hp : keep p p = true) :
    ∀ n m : ℕ,
      List.foldl (fun acc x => insertSorted keep x acc) (List.replicate m p)
        (List.replicate n p) = List.replicate (m + n) p := by
  intro n
  induction n with
  | zero => intro m; simp
  | succ n ih =>
      intro m
      rw [List.replicate_succ, List.foldl_cons, insertSorted_replicate keep p hp m,
        ih (m + 1)]
      congr 1
      omega

theorem stableSort_replicate {α : Type} (keep : α → α → Bool) (p : α)
    (hp : keep p p = true) (n : ℕ) :
    stableSort keep (List.replicate n p) = List.replicate n p := by
  unfold stableSort
  simpa using foldl_insertSorted_replicate keep p hp n 0

theorem foldl_add_replicate (f : Pixel → ℤ) (p : Pixel) :
    ∀ (n : ℕ) (s : ℤ),
      List.foldl (fun a q => a + f q) s (List.replicate n p) = s + n * f p := by
  intro n
  induction n with
  | zero => intro s; simp
  | succ n ih =>
      intro s
      rw [List.replicate_succ, List.foldl_cons, ih (s + f p)]
      push_cast
      ring

theorem averageBucket_replicate (p : Pixel) (n : ℕ) (hn : n ≠ 0) :
    averageBucket (List.replicate n p) = ⟨p.r, p.g, p.b, n⟩ := by
  have hcast : ((n : ℚ)) ≠ 0 := Nat.cast_ne_zero.mpr hn
  have hdiv : ∀ f : Pixel → ℤ,
      ((List.foldl (fun a q => a + f q) 0 (List.replicate n p) : ℤ) : ℚ) / (n : ℚ) =
        ((f p : ℤ) : ℚ) := by
    intro f
    rw [foldl_add_replicate f p n 0]
    push_cast
    field_simp
  have h1 := hdiv (fun q => q.r)
  have h2 := hdiv (fun q => q.g)
  have h3 := hdiv (fun q => q.b)
  simp only at h1 h2 h3
  simp only [averageBucket, List.length_replicate, if_neg hn]
  rw [h1, h2, h3, jsRound_intCast, jsRound_intCast, jsRound_intCast]

theorem medianCutAux_succ (fuel : ℕ) (pixels : List Pixel)
    (h : pixels.isEmpty = false) :
    medianCutAux (fuel + 1) pixels =
      medianCutAux fuel ((stableSort (pixLe (widestChannel pixels)) pixels).take
        ((stableSort (pixLe (widestChannel pixels)) pixels).length / 2)) ++
      medianCutAux fuel ((stableSort (pixLe (widestChannel pixels)) pixels).drop
        ((stableSort (pixLe (widestChannel pixels)) pixels).length / 2)) := by
  simp only [medianCutAux, h]
  rfl

theorem medianCutAux_replicate (p : Pixel) :
    ∀ fuel n : ℕ, 2 ^ fuel ≤ n →
      (medianCutAux fuel (List.replicate n p)).length = 2 ^ fuel ∧
      ∀ b ∈ medianCutAux fuel (List.replicate n p),
        b.r = p.r ∧ b.g = p.g ∧ b.b = p.b := by
  intro fuel
  induction fuel with
  | zero =>
      intro n hn
      have hn0 : n ≠ 0 := by
        intro h
        rw [h] at hn
        exact absurd hn (by norm_num)
      refine ⟨rfl, fun b hb => ?_⟩
      simp only [medianCutAux, List.mem_singleton] at hb
      subst hb
      rw [averageBucket_replicate p n hn0]
      exact ⟨rfl, rfl, rfl⟩
  | succ fuel ih =>
      intro n hn
      have h2 : 2 ^ fuel * 2 ≤ n := by
        rw [← pow_succ]
        exact hn
      have hpow : 0 < 2 ^ fuel := Nat.pos_pow_of_pos fuel (by norm_num)
      have hn2 : 2 ^ fuel ≤ n / 2 := (Nat.le_div_iff_mul_le (by norm_num)).mpr h2
      have hn2' : 2 ^ fuel ≤ n - n / 2 := by omega
      have hne : (List.replicate n p).isEmpty = false := by
        cases n with
        | zero => omega
        | succ m => simp [List.replicate_succ]
      have hsort :
          stableSort (pixLe (widestChannel (List.replicate n p))) (List.replicate n p) =
            List.replicate n p :=
        stableSort_replicate _ p (by simp [pixLe]) n
      rw [medianCutAux_succ fuel _ hne, hsort, List.length_replicate,
        List.take_replicate, List.drop_replicate, min_eq_left (Nat.div_le_self n 2)]
      obtain ⟨ihl1, ihm1⟩ := ih (n / 2) hn2
      obtain ⟨ihl2, ihm2⟩ := ih (n - n / 2) hn2'
      constructor
      · rw [List.length_append, ihl1, ihl2, pow_succ]
        ring
      · intro b hb
        rcases List.mem_append.mp hb with hb | hb
        · exact ihm1 b hb
        · exact ihm2 b hb

/-- Counterexample to Claim C2 as stated: ten samples of the single
color (100,150,200) produce eight leaf buckets, not exactly one. -/
theorem medianCut_single_color_counterexample :
    (medianCut (List.replicate 10 (⟨100, 150, 200⟩ : Pixel)) 0 3).length = 8 ∧
    (8 : ℕ) ≠ 1 :=
  ⟨by decide, by decide⟩

/-- Claim C2 (amended): the median-cut recursion averages the bucket when
the depth budget is exhausted or the bucket is empty, otherwise sorts by
the widest channel and splits at the midpoint index recursing with
depth+1; on a single-color bucket of at least `2^3` samples the depth-3
recursion returns `2^3 = 8` leaf buckets, every one of whose
representatives equals that color exactly. -/
theorem medianCut_spec :
    (∀ (pixels : List Pixel) (depth maxDepth : ℕ), maxDepth ≤ depth →
      medianCut pixels depth maxDepth = [averageBucket pixels]) ∧
    (∀ depth maxDepth : ℕ,
      medianCut ([] : List Pixel) depth maxDepth = [averageBucket []]) ∧
    (∀ (pixels : List Pixel) (depth maxDepth : ℕ), depth < maxDepth → pixels ≠ [] →
      medianCut pixels depth maxDepth =
        medianCut ((stableSort (pixLe (widestChannel pixels)) pixels).take
          ((stableSort (pixLe (widestChannel pixels)) pixels).length / 2))
          (depth + 1) maxDepth ++
        medianCut ((stableSort (pixLe (widestChannel pixels)) pixels).drop
          ((stableSort (pixLe (widestChannel pixels)) pixels).length / 2))
          (depth + 1) maxDepth) ∧
    (∀ (p : Pixel) (n : ℕ), 8 ≤ n →
      (medianCut (List.replicate n p) 0 3).length = 8 ∧
      ∀ b ∈ medianCut (List.replicate n p) 0 3,
        b.r = p.r ∧ b.g = p.g ∧ b.b = p.b) := by
  refine ⟨?_, ?_, ?_, ?_⟩
  · intro pixels depth maxDepth h
    unfold medianCut
    rw [Nat.sub_eq_zero_of_le h]
    rfl
  · intro depth maxDepth
    unfold medianCut
    cases maxDepth - depth with
    | zero => rfl
    | succ k => simp [medianCutAux]
  · intro pixels depth maxDepth hd hne
    unfold medianCut
    have hstep : maxDepth - depth = (maxDepth - (depth + 1)) + 1 := by omega
    rw [hstep]
    apply medianCutAux_succ
    cases pixels with
    | nil => exact absurd rfl hne
    | cons a l => rfl
  · intro p n hn
    exact medianCutAux_replicate p 3 n (by omega)

/-- Witness for C2 at ten samples of (100,150,200). -/
theorem medianCut_spec_witness :
    8 ≤ 10 ∧ (medianCut (List.replicate 10 (⟨100, 150, 200⟩ : Pixel)) 0 3).length = 8 :=
  ⟨by norm_num, (medianCut_spec.2.2.2 ⟨100, 150, 200⟩ 10 (by norm_num)).1⟩

/-- Counterexample to Claim C8 as stated: the reported under-sampling
failure message is 'Not enough distinct colors in image', which differs
from the message "insufficient color variety" named by the claim. -/
theorem undersample_message_counterexample :
    extractFromFile (fun _ : ℚ => (0 : ℚ)) (some ⟨"image/png", []⟩) =
      .failure "Not enough distinct colors in image" ∧
    "Not enough distinct colors in image" ≠ "insufficient color variety" :=
  ⟨by decide, by decide⟩

/-- Claim C8 (amended): when fewer than 10 qualifying samples remain
after filtering, extraction reports the explicit human-readable failure
'Not enough distinct colors in image' — never a silent empty success —
and that failure is distinct from the missing/invalid-image failure. -/
theorem extract_undersample_failure (pw : ℚ → ℚ) (f : ImageFile)
    (himg : startsWithChars "image/".data f.ftype.data = true)
    (hlt : (samplePixels pw f.data 10000).length < 10) :
    extractFromFile pw (some f) = .failure underSampleMsg ∧
    underSampleMsg ≠ "" ∧
    underSampleMsg ≠ noImageMsg ∧
    (∀ entries, extractFromFile pw (some f) ≠ .success entries) ∧
    extractFromFile pw none = .failure noImageMsg := by
  have hout : extractFromFile pw (some f) = .failure underSampleMsg := by
    simp only [extractFromFile, himg]
    rw [if_neg (by simp), if_pos hlt]
  refine ⟨hout, by decide, by decide, ?_, rfl⟩
  intro entries
  rw [hout]
  intro hcontra
  exact ExtractOutcome.noConfusion hcontra

/-- Witness for C8 at an empty (but valid) image, which yields zero
qualifying samples. -/
theorem extract_undersample_failure_witness :
    (startsWithChars "image/".data ("image/png" : String).data = true ∧
      (samplePixels (fun _ : ℚ => (0 : ℚ)) ([] : List Rgba) 10000).length < 10) ∧
    extractFromFile (fun _ : ℚ => (0 : ℚ)) (some ⟨"image/png", []⟩) =
      .failure underSampleMsg :=
  ⟨⟨by decide, by decide⟩,
    (extract_undersample_failure (fun _ : ℚ => (0 : ℚ)) ⟨"image/png", []⟩
      (by decide) (by decide)).1⟩

theorem takeWhile_append_all {p : Char → Bool} :
    ∀ l r : List Char, (∀ a ∈ l, p a = true) → (∀ c, r.head? = some c → p c = false) →
      (l ++ r).takeWhile p = l ∧ (l ++ r).dropWhile p = r := by
  intro l
  induction l with
  | nil =>
      intro r _ hr
      cases r with
      | nil => exact ⟨rfl, rfl⟩
      | cons c cs =>
          have hc : p c = false := hr c rfl
          exact ⟨by simp [List.takeWhile_cons, hc], by simp [List.dropWhile_cons, hc]⟩
  | cons a l ih =>
      intro r hl hr
      have ha : p a = true := hl a (by simp)
      have hrest := ih r (fun x hx => hl x (by simp [hx])) hr
      exact ⟨by simp [List.takeWhile_cons, ha, hrest.1],
        by simp [List.dropWhile_cons, ha, hrest.2]⟩

theorem isSpaceChar_of_isDigitDot {ch : Char} (h : isDigitDot ch = true) :
    isSpaceChar ch = false := by
  cases hs : isSpaceChar ch
  · rfl
  · exfalso
    simp only [isSpaceChar, Bool.or_eq_true, beq_iff_eq] at hs
    rcases hs with ((h1 | h1) | h1) | h1 <;> subst h1 <;> exact absurd h (by decide)

theorem isDigitDot_of_isSpaceChar {ch : Char} (h : isSpaceChar ch = true) :
    isDigitDot ch = false := by
  cases hd : isDigitDot ch
  · rfl
  · rw [isSpaceChar_of_isDigitDot hd] at h
    exact Bool.noConfusion h

theorem matchTriple_capture (t1 s1 t2 s2 t3 rest : List Char)
    (ht1 : t1 ≠ []) (ht1d : ∀ ch ∈ t1, isDigitDot ch = true)
    (hs1 : s1 ≠ []) (hs1s : ∀ ch ∈ s1, isSpaceChar ch = true)
    (ht2 : t2 ≠ []) (ht2d : ∀ ch ∈ t2, isDigitDot ch = true)
    (hs2 : s2 ≠ []) (hs2s : ∀ ch ∈ s2, isSpaceChar ch = true)
    (ht3 : t3 ≠ []) (ht3d : ∀ ch ∈ t3, isDigitDot ch = true)
    (hrest : ∀ c, rest.head? = some c → isDigitDot c = false) :
    matchTriple (t1 ++ (s1 ++ (t2 ++ (s2 ++ (t3 ++ rest))))) = some (t1, t2, t3) := by
  have headSpace : ∀ (s : List Char), s ≠ [] → (∀ ch ∈ s, isSpaceChar ch = true) →
      ∀ (x : List Char) (c : Char), (s ++ x).head? = some c → isDigitDot c = false := by
    intro s hs hss x c hc
    cases s with
    | nil => exact absurd rfl hs
    | cons a as =>
        simp only [List.cons_append, List.head?_cons, Option.some.injEq] at hc
        subst hc
        exact isDigitDot_of_isSpaceChar (hss a (by simp))
  have headDigit : ∀ (t : List Char), t ≠ [] → (∀ ch ∈ t, isDigitDot ch = true) →
      ∀ (x : List Char) (c : Char), (t ++ x).head? = some c → isSpaceChar c = false := by
    intro t ht htd x c hc
    cases t with
    | nil => exact absurd rfl ht
    | cons a as =>
        simp only [List.cons_append, List.head?_cons, Option.some.injEq] at hc
        subst hc
        exact isSpaceChar_of_isDigitDot (htd a (by simp))
  obtain ⟨e1, d1⟩ := takeWhile_append_all t1 (s1 ++ (t2 ++ (s2 ++ (t3 ++ rest)))) ht1d
    (headSpace s1 hs1 hs1s _)
  obtain ⟨e2, d2⟩ := takeWhile_append_all s1 (t2 ++ (s2 ++ (t3 ++ rest))) hs1s
    (headDigit t2 ht2 ht2d _)
  obtain ⟨e3, d3⟩ := takeWhile_append_all t2 (s2 ++ (t3 ++ rest)) ht2d
    (headSpace s2 hs2 hs2s _)
  obtain ⟨e4, d4⟩ := takeWhile_append_all s2 (t3 ++ rest) hs2s
    (headDigit t3 ht3 ht3d _)
  obtain ⟨e5, _⟩ := takeWhile_append_all t3 rest ht3d hrest
  simp only [matchTriple, e1, d1, e2, d2, e3, d3, e4, d4, e5,
    if_neg ht1, if_neg hs1, if_neg ht2, if_neg hs2, if_neg ht3]

theorem scanOklch_immediate (body : List Char) (g : List Char × List Char × List Char)
    (h : matchTriple body = some g) :
    scanOklch ('o' :: 'k' :: 'l' :: 'c' :: 'h' :: '(' :: body) = some g := by
  have hpre : startsWithChars oklchParen
      ('o' :: 'k' :: 'l' :: 'c' :: 'h' :: '(' :: body) = true := rfl
  simp only [scanOklch, hpre, if_true, List.drop_succ_cons, List.drop_zero, h]

/-- Claim C1 (amended): the oklch branch of `parseToOklch` accepts every
string of the shape `oklch(` followed by three runs of digits-and-dots
separated by whitespace runs (anything non-numeric may follow), and
returns the literally parsed components with no domain validation —
out-of-range lightness, chroma or hue are accepted; being total, the
function never throws, and non-oklch or regex-rejected inputs fall
through to `null` or the external library parser. -/
theorem parse_oklch_branch_literal (t1 s1 t2 s2 t3 rest : List Char)
    (ht1 : t1 ≠ []) (ht1d : ∀ ch ∈ t1, isDigitDot ch = true)
    (hs1 : s1 ≠ []) (hs1s : ∀ ch ∈ s1, isSpaceChar ch = true)
    (ht2 : t2 ≠ []) (ht2d : ∀ ch ∈ t2, isDigitDot ch = true)
    (hs2 : s2 ≠ []) (hs2s : ∀ ch ∈ s2, isSpaceChar ch = true)
    (ht3 : t3 ≠ []) (ht3d : ∀ ch ∈ t3, isDigitDot ch = true)
    (hrest : ∀ c, rest.head? = some c → isDigitDot c = false) :
    parseToOklch
        ('o' :: 'k' :: 'l' :: 'c' :: 'h' :: '(' ::
          (t1 ++ (s1 ++ (t2 ++ (s2 ++ (t3 ++ rest)))))) =
      .parsed ⟨jsParseFloat t1, jsParseFloat t2, jsParseFloat t3⟩ := by
  have hm := matchTriple_capture t1 s1 t2 s2 t3 rest ht1 ht1d hs1 hs1s ht2 ht2d
    hs2 hs2s ht3 ht3d hrest
  have hs := scanOklch_immediate _ _ hm
  have hword : startsWithChars oklchWord
      ('o' :: 'k' :: 'l' :: 'c' :: 'h' :: '(' ::
        (t1 ++ (s1 ++ (t2 ++ (s2 ++ (t3 ++ rest)))))) = true := rfl
  simp only [parseToOklch, hword, if_true, hs, reduceCtorEq, if_false]

/-- Witness for C1 at the out-of-domain token triple `2 3 400`. -/
theorem parse_oklch_branch_literal_witness :
    ((['2'] : List Char) ≠ [] ∧ ([' '] : List Char) ≠ [] ∧
      (['3'] : List Char) ≠ [] ∧ (['4', '0', '0'] : List Char) ≠ []) ∧
    parseToOklch
        ('o' :: 'k' :: 'l' :: 'c' :: 'h' :: '(' ::
          (['2'] ++ ([' '] ++ (['3'] ++ ([' '] ++ (['4', '0', '0'] ++ [')'])))))) =
      .parsed ⟨some 2, some 3, some 400⟩ := by
  refine ⟨⟨by decide, by decide, by decide, by decide⟩, ?_⟩
  rw [parse_oklch_branch_literal ['2'] [' '] ['3'] [' '] ['4', '0', '0'] [')']
    (by decide) (by decide) (by decide) (by decide) (by decide) (by decide)
    (by decide) (by decide) (by decide) (by decide)
    (fun c hc => by injection hc with h; subst h; decide)]
  decide

/-- Counterexample to Claim C1 as stated: `oklch(2 3 400)` has lightness
2 outside [0,1] and hue 400 outside [0,360), yet parse returns the
components literally instead of `None`. -/
theorem parse_accepts_out_of_domain_counterexample :
    parseToOklch ['o', 'k', 'l', 'c', 'h', '(', '2', ' ', '3', ' ', '4', '0', '0', ')'] =
      .parsed ⟨some 2, some 3, some 400⟩ ∧
    ¬ ((2 : ℚ) ≤ 1) ∧ ¬ ((400 : ℚ) < 360) :=
  ⟨by decide, by norm_num, by norm_num⟩

end DesignManager
